import Mathlib

/-!
Shallow embedding of the research-master MCP server core, checked against its
natural-language specification.

Modelled source files:
* `mcp-server/src/protocols/mcp.ts` — message envelope protocol (`MCPProtocol`);
* `mcp-server/src/services/ollama.ts` — generation broker (`OllamaService`);
* `mcp-server/src/managers/workflow.ts` — workflow state machine (`WorkflowManager`);
* `mcp-server/src/index.ts` — MCP request handler and REST session listing.

JavaScript runtime details that the embedding makes explicit:
* dynamic (`any`) values are embedded as the inductive `JSVal`, with JS
  truthiness (`truthy`) and `typeof`-is-`"object"` (`jsTypeofIsObject`);
* wall-clock instants (`Date.now()`, `new Date()`) are `Nat` parameters `now`;
* Redis TTL entries carry an explicit absolute expiry instant;
* asynchronous interleaving is embedded as explicit small-step transitions on a
  broker state (`BrokerState`), with one step per suspension point.
-/

namespace MCP

/-- Embedding of JavaScript runtime values as far as the protocol layer
inspects them (`null`, `undefined`, booleans, numbers, strings, objects). -/
inductive JSVal where
  | vnull : JSVal
  | vundefined : JSVal
  | vbool : Bool → JSVal
  | vnum : Int → JSVal
  | vstr : String → JSVal
  | vobj : List (String × JSVal) → JSVal

/-- JavaScript truthiness of a value (`!v` in the source is `!truthy v`). -/
def truthy : JSVal → Bool
  | .vnull => false
  | .vundefined => false
  | .vbool b => b
  | .vnum n => n != 0
  | .vstr s => s != ""
  | .vobj _ => true

/-- `typeof v === "object"`; note that in JavaScript `typeof null` is
`"object"` as well. -/
def jsTypeofIsObject : JSVal → Bool
  | .vnull => true
  | .vobj _ => true
  | _ => false

/-- Property access `v.k`: a missing key reads as `undefined`. -/
def getField (v : JSVal) (k : String) : JSVal :=
  match v with
  | .vobj fs => ((fs.find? (fun p => p.1 = k)).map (fun p => p.2)).getD .vundefined
  | _ => .vundefined

/-- `MCPProtocol.validate` from `protocols/mcp.ts`:
reject a falsy or non-object value, reject when `id`, `type` or `method` is
missing or falsy, reject a `type` outside the three-member enumeration. -/
def validate (message : JSVal) : Bool :=
  if !truthy message || !jsTypeofIsObject message then false
  else if !truthy (getField message "id") || !truthy (getField message "type")
      || !truthy (getField message "method") then false
  else
    match getField message "type" with
    | .vstr s => s = "request" || s = "response" || s = "notification"
    | _ => false

/-- `MCPProtocol.createRequest`: `id` is `Date.now().toString()`. -/
def createRequest (method : String) (params : JSVal) (now : Nat) : JSVal :=
  .vobj [("id", .vstr (toString now)), ("type", .vstr "request"),
         ("method", .vstr method), ("params", params),
         ("timestamp", .vnum now)]

/-- `MCPProtocol.createResponse`: reuses the request id and stamps an empty
`method`. -/
def createResponse (requestId : String) (result : JSVal) (now : Nat) : JSVal :=
  .vobj [("id", .vstr requestId), ("type", .vstr "response"),
         ("method", .vstr ""), ("result", result),
         ("timestamp", .vnum now)]

/-- `MCPProtocol.createError`: a `response`-kind envelope carrying an `error`
payload instead of a `result`. -/
def createError (requestId : String) (code : Int) (message : String)
    (data : JSVal) (now : Nat) : JSVal :=
  .vobj [("id", .vstr requestId), ("type", .vstr "response"),
         ("method", .vstr ""),
         ("error", .vobj [("code", .vnum code), ("message", .vstr message),
                          ("data", data)]),
         ("timestamp", .vnum now)]

/-- `MCPProtocol.createNotification`: `id` is `Date.now().toString()`. -/
def createNotification (method : String) (params : JSVal) (now : Nat) : JSVal :=
  .vobj [("id", .vstr (toString now)), ("type", .vstr "notification"),
         ("method", .vstr method), ("params", params),
         ("timestamp", .vnum now)]

end MCP

namespace MCP

theorem toDigitsCore_len_ge : ∀ (b fuel n : Nat) (ds : List Char),
    ds.length ≤ (Nat.toDigitsCore b fuel n ds).length := by
  intro b fuel
  induction fuel with
  | zero => intro n ds; simp [Nat.toDigitsCore]
  | succ f ih =>
    intro n ds
    simp only [Nat.toDigitsCore]
    split
    · simp
    · exact le_trans (by simp) (ih _ _)

theorem natRepr_ne_empty (n : Nat) : Nat.repr n ≠ "" := by
  have key : 1 ≤ (Nat.toDigitsCore 10 (n + 1) n []).length := by
    simp only [Nat.toDigitsCore]
    split
    · simp
    · exact le_trans (by simp) (toDigitsCore_len_ge 10 n (n / 10) _)
  unfold Nat.repr Nat.toDigits
  intro h
  have h2 : (Nat.toDigitsCore 10 (n + 1) n []).length = 0 := by
    have := congrArg String.length h
    simpa [String.length, List.asString] using this
  omega

theorem toString_nat_ne_empty (n : Nat) : toString n ≠ "" := natRepr_ne_empty n

/-- C4 (counterexample): the claim states that `validate` returns `true` for
every envelope produced by the protocol's own factories, including a response;
but a factory-built response carries `method = ""`, which is falsy, so the
`!message.method` presence check rejects it. -/
theorem validate_rejects_factory_response :
    validate (createResponse "123" .vnull 0) = false := by rfl

/-- C4 (amended): envelope validation returns `false` for `null`, for any
non-object, for any object missing `id`, `kind` (field `type`), or `method`,
and for any object whose `kind` is a string outside
`{request, response, notification}`; it returns `true` for factory-produced
requests and notifications (whose `method` is nonempty), but it returns
`false` for every factory-produced response, whose empty `method` fails the
required-field presence check. -/
theorem validate_characterization :
    validate .vnull = false
    ∧ (∀ v, jsTypeofIsObject v = false → validate v = false)
    ∧ (∀ fs, fs.find? (fun p => p.1 = "id") = none → validate (.vobj fs) = false)
    ∧ (∀ fs, fs.find? (fun p => p.1 = "type") = none → validate (.vobj fs) = false)
    ∧ (∀ fs, fs.find? (fun p => p.1 = "method") = none → validate (.vobj fs) = false)
    ∧ (∀ fs s, getField (.vobj fs) "type" = .vstr s →
        s ≠ "request" → s ≠ "response" → s ≠ "notification" →
        validate (.vobj fs) = false)
    ∧ (∀ method params now, method ≠ "" →
        validate (createRequest method params now) = true)
    ∧ (∀ method params now, method ≠ "" →
        validate (createNotification method params now) = true)
    ∧ (∀ requestId result now,
        validate (createResponse requestId result now) = false) := by
  refine ⟨rfl, ?_, ?_, ?_, ?_, ?_, ?_, ?_, ?_⟩
  · intro v h
    simp [validate, h]
  · intro fs h
    simp [validate, getField, h, truthy, jsTypeofIsObject]
  · intro fs h
    simp [validate, getField, h, truthy, jsTypeofIsObject]
  · intro fs h
    simp [validate, getField, h, truthy, jsTypeofIsObject]
  · intro fs s hty h1 h2 h3
    simp [validate, hty, h1, h2, h3, truthy, jsTypeofIsObject]
  · intro method params now h
    simp +decide [validate, createRequest, getField, truthy, jsTypeofIsObject,
      List.find?, toString_nat_ne_empty now, h]
  · intro method params now h
    simp +decide [validate, createNotification, getField, truthy,
      jsTypeofIsObject, List.find?, toString_nat_ne_empty now, h]
  · intro requestId result now
    simp +decide [validate, createResponse, getField, truthy, jsTypeofIsObject,
      List.find?]

/-- C4 witness: the amended characterization applied at concrete envelopes. -/
theorem validate_characterization_witness :
    validate (createRequest "research.start" .vnull 5) = true
    ∧ validate (.vobj [("id", .vstr "1"), ("type", .vstr "bogus"),
        ("method", .vstr "m")]) = false :=
  ⟨validate_characterization.2.2.2.2.2.2.1 "research.start" .vnull 5
      (by decide),
   validate_characterization.2.2.2.2.2.1 _ "bogus" (by rfl) (by decide)
      (by decide) (by decide)⟩

end MCP

namespace Ollama

/-- Message roles from `services/ollama.ts` (`OllamaMessage.role`). -/
inductive Role where
  | system : Role
  | user : Role
  | assistant : Role
deriving DecidableEq, Repr

/-- `OllamaMessage` from `services/ollama.ts`. -/
structure OllamaMessage where
  role : Role
  content : String
deriving DecidableEq, Repr

/-- `OllamaResponse` from `services/ollama.ts` (metric fields that no claim
inspects are omitted). -/
structure OllamaResponse where
  model : String
  created_at : String
  message : OllamaMessage
  done : Bool
deriving DecidableEq, Repr

/-- One backend attempt inside `performGeneration`: the `axios.post` either
resolves with a response or rejects with an error message. -/
inductive AttemptOutcome where
  | success : OllamaResponse → AttemptOutcome
  | failure : String → AttemptOutcome

/-- Whether an attempt outcome is a failure. -/
def AttemptOutcome.isFailure : AttemptOutcome → Bool
  | .success _ => false
  | .failure _ => true

/-- `this.config.maxRetries || 3`: JavaScript `||` replaces both `undefined`
and `0` by the default `3`. -/
def effectiveMaxRetries : Option Nat → Nat
  | none => 3
  | some 0 => 3
  | some (n + 1) => n + 1

/-- The retry loop of `OllamaService.performGeneration`, with the backend
modelled by `outcome : Nat → AttemptOutcome` (outcome of each 0-based
attempt).  Returns the result together with the list of backoff delays
(in milliseconds) awaited between consecutive attempts; `fuel` counts the
attempts still allowed and `lastErr` threads `lastError`. -/
def performGenerationGo (maxRetries : Nat) (outcome : Nat → AttemptOutcome) :
    Nat → Nat → String → Except String OllamaResponse × List Nat
  | _, 0, lastErr =>
    (Except.error ("Generation failed after " ++ toString maxRetries
        ++ " attempts: " ++ lastErr), [])
  | attempt, fuel + 1, _ =>
    match outcome attempt with
    | .success r => (Except.ok r, [])
    | .failure m =>
      let delays := if attempt < maxRetries - 1 then [2 ^ attempt * 1000] else []
      let rest := performGenerationGo maxRetries outcome (attempt + 1) fuel m
      (rest.1, delays ++ rest.2)

/-- `OllamaService.performGeneration`: up to `maxRetries` attempts starting
at attempt 0, `lastError` initialised to `"No attempts made"`. -/
def performGeneration (maxRetries : Nat) (outcome : Nat → AttemptOutcome) :
    Except String OllamaResponse × List Nat :=
  performGenerationGo maxRetries outcome 0 maxRetries "No attempts made"

/-- State of one `OllamaService` instance as far as `generate` manipulates
it.  Request fingerprints (the sha256 cache keys) are `String`s; promises are
numbered; `delivered` records which caller received which result.  The cache
holds `(key, value, absolute expiry instant)` triples mirroring Redis
`SET ... EX 3600`. -/
structure BrokerState where
  cacheEnabled : Bool
  cache : List (String × OllamaResponse × Nat)
  active : List (String × Nat × Bool)
  waiters : List (Nat × List Nat)
  nextProm : Nat
  backendCalls : Nat
  delivered : List (Nat × OllamaResponse)

/-- `redis.get` of a TTL key: present iff an entry for the key exists whose
expiry instant lies in the future. -/
def redisGet (now : Nat) (cache : List (String × OllamaResponse × Nat))
    (key : String) : Option OllamaResponse :=
  match cache.find? (fun e => e.1 = key && decide (now < e.2.2)) with
  | some e => some e.2.1
  | none => none

/-- `redis.set key value EX 3600`: overwrite any previous entry for the key. -/
def redisSetEx (cache : List (String × OllamaResponse × Nat)) (key : String)
    (v : OllamaResponse) (expiresAt : Nat) : List (String × OllamaResponse × Nat) :=
  (key, v, expiresAt) :: cache.filter (fun e => e.1 != key)

/-- Append a caller to the waiter list of promise `p`. -/
def addWaiter (ws : List (Nat × List Nat)) (p : Nat) (c : Nat) :
    List (Nat × List Nat) :=
  ws.map (fun e => if e.1 = p then (e.1, e.2 ++ [c]) else e)

/-- The callers awaiting promise `p`. -/
def waitersOf (ws : List (Nat × List Nat)) (p : Nat) : List Nat :=
  ((ws.find? (fun e => e.1 = p)).map (fun e => e.2)).getD []

/-- Entry of `OllamaService.generate` for caller `c` with fingerprint `fp`:
check the cache (`cacheEnabled && useCache`), then the in-flight map
(`activeRequests`), and only on a double miss create a new promise and issue
a backend call.  The deduplication check through the map insertion is a
single synchronous block in the source (no `await` between them), so it is
one atomic transition here; the preceding cache read suspends, but the cache
entry for `fp` can only change when `fp`'s own call resolves. -/
def generateArrive (now c : Nat) (fp : String) (useCache : Bool)
    (s : BrokerState) : BrokerState :=
  match (if s.cacheEnabled && useCache then redisGet now s.cache fp else none) with
  | some v => { s with delivered := (c, v) :: s.delivered }
  | none =>
    match s.active.find? (fun e => e.1 = fp) with
    | some e => { s with waiters := addWaiter s.waiters e.2.1 c }
    | none =>
      { s with
        active := (fp, s.nextProm, useCache) :: s.active,
        waiters := (s.nextProm, [c]) :: s.waiters,
        nextProm := s.nextProm + 1,
        backendCalls := s.backendCalls + 1 }

/-- Successful resolution of the in-flight backend call for `fp` with value
`v`: every waiter of its promise receives `v`; the creator caches the value
for 3600 seconds when `cacheEnabled` and its own `useCache` flag held; the
`finally` block removes the in-flight entry. -/
def generateResolve (now : Nat) (fp : String) (v : OllamaResponse)
    (s : BrokerState) : BrokerState :=
  match s.active.find? (fun e => e.1 = fp) with
  | none => s
  | some e =>
    { s with
      delivered := (waitersOf s.waiters e.2.1).map (fun c => (c, v))
          ++ s.delivered,
      cache := if s.cacheEnabled && e.2.2 then
          redisSetEx s.cache fp v (now + 3600) else s.cache,
      active := s.active.filter (fun a => a.1 != fp),
      waiters := s.waiters.filter (fun w => w.1 != e.2.1) }

theorem effectiveMaxRetries_pos (cfg : Option Nat) :
    1 ≤ effectiveMaxRetries cfg := by
  match cfg with
  | none => exact Nat.le_refl 1 |>.trans (by norm_num [effectiveMaxRetries])
  | some 0 => norm_num [effectiveMaxRetries]
  | some (n + 1) => simp [effectiveMaxRetries]

theorem performGenerationGo_success (M : Nat) (outcome : Nat → AttemptOutcome) :
    ∀ (k attempt fuel : Nat) (lastErr : String) (r : OllamaResponse),
      attempt + fuel = M → k < fuel →
      outcome (attempt + k) = .success r →
      (∀ i, i < k → (outcome (attempt + i)).isFailure = true) →
      performGenerationGo M outcome attempt fuel lastErr =
        (Except.ok r, (List.range k).map (fun i => 2 ^ (attempt + i) * 1000)) := by
  intro k
  induction k with
  | zero =>
    intro attempt fuel lastErr r hM hk hs _
    match fuel, hk with
    | f + 1, _ =>
      simp only [performGenerationGo]
      rw [show attempt + 0 = attempt from rfl] at hs
      rw [hs]
      simp
  | succ k ih =>
    intro attempt fuel lastErr r hM hk hs hf
    match fuel, hk with
    | f + 1, _ =>
      have h0 := hf 0 (Nat.succ_pos k)
      simp only [performGenerationGo]
      cases hout : outcome attempt with
      | success r' =>
        rw [show attempt + 0 = attempt from rfl, hout] at h0
        simp [AttemptOutcome.isFailure] at h0
      | failure m =>
        have hlt : attempt < M - 1 := by omega
        have hrec := ih (attempt + 1) f m r (by omega) (by omega)
          (by rw [show attempt + 1 + k = attempt + (k + 1) by omega]; exact hs)
          (by intro i hi
              rw [show attempt + 1 + i = attempt + (i + 1) by omega]
              exact hf (i + 1) (by omega))
        simp only [hrec, hlt, if_pos, List.range_succ_eq_map, List.map_map,
          Function.comp, List.map_cons, List.singleton_append, Prod.mk.injEq]
        refine ⟨trivial, ?_⟩
        simp only [List.cons.injEq]
        constructor
        · norm_num
        · apply List.map_congr_left
          intro i _
          simp only [Function.comp_apply, Nat.succ_eq_add_one, pow_succ]
          ring

theorem performGenerationGo_allfail (M : Nat) (outcome : Nat → AttemptOutcome)
    (f : Nat → String) :
    ∀ (fuel attempt : Nat) (lastErr : String),
      attempt + fuel = M → 1 ≤ fuel →
      (∀ i, attempt ≤ i → i < M → outcome i = .failure (f i)) →
      performGenerationGo M outcome attempt fuel lastErr =
        (Except.error ("Generation failed after " ++ toString M
            ++ " attempts: " ++ f (M - 1)),
         (List.range (fuel - 1)).map (fun i => 2 ^ (attempt + i) * 1000)) := by
  intro fuel
  induction fuel with
  | zero => intro attempt lastErr _ h1; omega
  | succ fl ih =>
    intro attempt lastErr hM _ hfail
    have hout : outcome attempt = .failure (f attempt) :=
      hfail attempt (Nat.le_refl _) (by omega)
    cases fl with
    | zero =>
      have ha : attempt = M - 1 := by omega
      simp only [performGenerationGo, hout]
      have hnlt : ¬ attempt < M - 1 := by omega
      simp [performGenerationGo, hnlt, ha]
    | succ fl' =>
      have hlt : attempt < M - 1 := by omega
      have hrec := ih (attempt + 1) (f attempt) (by omega) (by omega)
        (fun i hi1 hi2 => hfail i (by omega) hi2)
      obtain ⟨F, hF⟩ : ∃ F, fl' + 1 = F := ⟨_, rfl⟩
      rw [hF] at hrec ⊢
      simp only [performGenerationGo, hout, hrec, hlt, if_pos,
        List.singleton_append, Prod.mk.injEq]
      refine ⟨trivial, ?_⟩
      have h1 : F + 1 - 1 = (F - 1) + 1 := by omega
      rw [h1, List.range_succ_eq_map]
      simp only [List.map_cons, List.map_map, List.cons.injEq]
      constructor
      · norm_num
      · apply List.map_congr_left
        intro i _
        simp only [Function.comp_apply, Nat.succ_eq_add_one, pow_succ]
        ring

/-- C3 (confirmed): with `maxRetries = config.maxRetries || 3`, a run whose
backend fails on every attempt before attempt `k < maxRetries` and succeeds
at attempt `k` returns the successful result, after awaiting `2 ^ attempt`
seconds (`2 ^ attempt * 1000` milliseconds) between consecutive attempts; a
run whose every attempt fails throws the generation error naming the attempt
count and carrying the last observed error's message, after backoff delays
between each pair of consecutive attempts. -/
theorem performGeneration_retry (cfg : Option Nat)
    (outcome : Nat → AttemptOutcome) :
    (∀ k r, k < effectiveMaxRetries cfg → outcome k = .success r →
      (∀ i, i < k → (outcome i).isFailure = true) →
      performGeneration (effectiveMaxRetries cfg) outcome =
        (Except.ok r, (List.range k).map (fun i => 2 ^ i * 1000)))
    ∧ (∀ f : Nat → String,
      (∀ i, i < effectiveMaxRetries cfg → outcome i = .failure (f i)) →
      performGeneration (effectiveMaxRetries cfg) outcome =
        (Except.error ("Generation failed after "
            ++ toString (effectiveMaxRetries cfg) ++ " attempts: "
            ++ f (effectiveMaxRetries cfg - 1)),
         (List.range (effectiveMaxRetries cfg - 1)).map
            (fun i => 2 ^ i * 1000))) := by
  constructor
  · intro k r hk hs hf
    have := performGenerationGo_success (effectiveMaxRetries cfg) outcome k 0
      (effectiveMaxRetries cfg) "No attempts made" r (by omega) hk
      (by simpa using hs) (by simpa using hf)
    simpa [performGeneration] using this
  · intro f hfail
    have := performGenerationGo_allfail (effectiveMaxRetries cfg) outcome f
      (effectiveMaxRetries cfg) 0 "No attempts made" (by omega)
      (effectiveMaxRetries_pos cfg) (fun i _ hi2 => hfail i hi2)
    simpa [performGeneration] using this

/-- C3 witness: one transient failure then success under the default
`maxRetries = 3`, with a single 1-second backoff. -/
theorem performGeneration_retry_witness :
    performGeneration (effectiveMaxRetries none)
      (fun i => if i = 0 then .failure "boom"
        else .success ⟨"mixtral", "t0", ⟨.assistant, "hi"⟩, true⟩) =
      (Except.ok ⟨"mixtral", "t0", ⟨.assistant, "hi"⟩, true⟩,
       (List.range 1).map (fun i => 2 ^ i * 1000)) :=
  (performGeneration_retry none _).1 1 _ (by decide) (by rfl) (by decide)

theorem redisGet_none_of_absent (now : Nat)
    (cache : List (String × OllamaResponse × Nat)) (key : String)
    (h : cache.find? (fun e => e.1 = key) = none) :
    redisGet now cache key = none := by
  unfold redisGet
  have h2 : cache.find? (fun e => e.1 = key && decide (now < e.2.2)) = none := by
    rw [List.find?_eq_none] at h ⊢
    intro x hx
    have hk := h x hx
    simp only [Bool.and_eq_true, decide_eq_true_eq, not_and]
    intro he
    exact absurd he (by simpa using hk)
  rw [h2]

/-- C1 (confirmed): with no cache entry for fingerprint `fp` and no call for
`fp` in flight, a first `generate` arrival issues exactly one backend call;
a second arrival for the same fingerprint while that call is unresolved
issues no further backend call, and when the shared call resolves with `v`
both callers receive the same value `v`. -/
theorem generate_dedup (s : BrokerState) (fp : String) (c1 c2 : Nat)
    (uc1 uc2 : Bool) (v : OllamaResponse) (t1 t2 t3 : Nat)
    (hcache : s.cache.find? (fun e => e.1 = fp) = none)
    (hactive : s.active.find? (fun e => e.1 = fp) = none) :
    (generateArrive t2 c2 fp uc2 (generateArrive t1 c1 fp uc1 s)).backendCalls
        = s.backendCalls + 1
    ∧ (c1, v) ∈ (generateResolve t3 fp v
        (generateArrive t2 c2 fp uc2 (generateArrive t1 c1 fp uc1 s))).delivered
    ∧ (c2, v) ∈ (generateResolve t3 fp v
        (generateArrive t2 c2 fp uc2 (generateArrive t1 c1 fp uc1 s))).delivered := by
  have hs1 : generateArrive t1 c1 fp uc1 s =
      { s with active := (fp, s.nextProm, uc1) :: s.active,
               waiters := (s.nextProm, [c1]) :: s.waiters,
               nextProm := s.nextProm + 1,
               backendCalls := s.backendCalls + 1 } := by
    unfold generateArrive
    have hget : (if s.cacheEnabled && uc1 then redisGet t1 s.cache fp else none)
        = none := by
      cases (s.cacheEnabled && uc1) <;>
        simp [redisGet_none_of_absent t1 s.cache fp hcache]
    rw [hget, hactive]
  rw [hs1]
  have hs2 : generateArrive t2 c2 fp uc2
      { s with active := (fp, s.nextProm, uc1) :: s.active,
               waiters := (s.nextProm, [c1]) :: s.waiters,
               nextProm := s.nextProm + 1,
               backendCalls := s.backendCalls + 1 } =
      { s with active := (fp, s.nextProm, uc1) :: s.active,
               waiters := (s.nextProm, [c1, c2]) :: addWaiter s.waiters s.nextProm c2,
               nextProm := s.nextProm + 1,
               backendCalls := s.backendCalls + 1 } := by
    unfold generateArrive
    have hget : (if s.cacheEnabled && uc2 then redisGet t2 s.cache fp else none)
        = none := by
      cases (s.cacheEnabled && uc2) <;>
        simp [redisGet_none_of_absent t2 s.cache fp hcache]
    simp only [hget]
    simp [List.find?, addWaiter]
  rw [hs2]
  refine ⟨rfl, ?_, ?_⟩ <;>
  · unfold generateResolve
    simp [List.find?, waitersOf]

/-- C2 (confirmed): with caching enabled, after the in-flight call for
fingerprint `fp` — whose creator passed `useCache = true` — resolves
successfully at time `t0` with value `v`, a later `generate` arrival for `fp`
with `useCache = true` at any time `t2 < t0 + 3600` (before the 1-hour expiry
elapses) is answered from the cache with the stored value `v` and issues no
backend call, irrespective of the rest of the in-flight state. -/
theorem generate_cache_hit (s : BrokerState) (fp : String) (p c2 : Nat)
    (v : OllamaResponse) (t0 t2 : Nat)
    (hen : s.cacheEnabled = true)
    (hactive : s.active.find? (fun e => e.1 = fp) = some (fp, p, true))
    (hfresh : t2 < t0 + 3600) :
    (generateArrive t2 c2 fp true (generateResolve t0 fp v s)).delivered
        = (c2, v) :: (generateResolve t0 fp v s).delivered
    ∧ (generateArrive t2 c2 fp true (generateResolve t0 fp v s)).backendCalls
        = (generateResolve t0 fp v s).backendCalls := by
  have hs1 : generateResolve t0 fp v s =
      { s with
        delivered := (waitersOf s.waiters p).map (fun c => (c, v)) ++ s.delivered,
        cache := redisSetEx s.cache fp v (t0 + 3600),
        active := s.active.filter (fun a => a.1 != fp),
        waiters := s.waiters.filter (fun w => w.1 != p) } := by
    unfold generateResolve
    rw [hactive]
    simp [hen]
  rw [hs1]
  have hget : redisGet t2 (redisSetEx s.cache fp v (t0 + 3600)) fp = some v := by
    unfold redisGet redisSetEx
    simp [List.find?, hfresh]
  unfold generateArrive
  simp [hen, hget]

/-- C1 witness: the deduplication property at a concrete empty broker. -/
theorem generate_dedup_witness :
    (generateArrive 1 2 "fp" true
        (generateArrive 0 1 "fp" true
          ⟨true, [], [], [], 0, 0, []⟩)).backendCalls = 0 + 1
    ∧ ((1 : Nat), (⟨"m", "t", ⟨.assistant, "ok"⟩, true⟩ : OllamaResponse)) ∈
        (generateResolve 2 "fp" ⟨"m", "t", ⟨.assistant, "ok"⟩, true⟩
          (generateArrive 1 2 "fp" true
            (generateArrive 0 1 "fp" true
              ⟨true, [], [], [], 0, 0, []⟩))).delivered
    ∧ ((2 : Nat), (⟨"m", "t", ⟨.assistant, "ok"⟩, true⟩ : OllamaResponse)) ∈
        (generateResolve 2 "fp" ⟨"m", "t", ⟨.assistant, "ok"⟩, true⟩
          (generateArrive 1 2 "fp" true
            (generateArrive 0 1 "fp" true
              ⟨true, [], [], [], 0, 0, []⟩))).delivered :=
  generate_dedup ⟨true, [], [], [], 0, 0, []⟩ "fp" 1 2 true true
    ⟨"m", "t", ⟨.assistant, "ok"⟩, true⟩ 0 1 2 (by rfl) (by rfl)

/-- C2 witness: the cache-hit property at a concrete broker with one
in-flight call. -/
theorem generate_cache_hit_witness :
    (generateArrive 10 7 "fp" true (generateResolve 5 "fp"
        ⟨"m", "t", ⟨.assistant, "ok"⟩, true⟩
        ⟨true, [], [("fp", 0, true)], [(0, [3])], 1, 1, []⟩)).delivered
      = ((7 : Nat), (⟨"m", "t", ⟨.assistant, "ok"⟩, true⟩ : OllamaResponse)) ::
        (generateResolve 5 "fp" ⟨"m", "t", ⟨.assistant, "ok"⟩, true⟩
          ⟨true, [], [("fp", 0, true)], [(0, [3])], 1, 1, []⟩).delivered
    ∧ (generateArrive 10 7 "fp" true (generateResolve 5 "fp"
        ⟨"m", "t", ⟨.assistant, "ok"⟩, true⟩
        ⟨true, [], [("fp", 0, true)], [(0, [3])], 1, 1, []⟩)).backendCalls
      = (generateResolve 5 "fp" ⟨"m", "t", ⟨.assistant, "ok"⟩, true⟩
          ⟨true, [], [("fp", 0, true)], [(0, [3])], 1, 1, []⟩).backendCalls :=
  generate_cache_hit ⟨true, [], [("fp", 0, true)], [(0, [3])], 1, 1, []⟩
    "fp" 0 7 ⟨"m", "t", ⟨.assistant, "ok"⟩, true⟩ 5 10 (by rfl) (by rfl)
    (by norm_num)

end Ollama

namespace Workflow

/-- `ResearchStage` from `index.ts`, in enumeration order. -/
inductive ResearchStage where
  | INITIAL : ResearchStage
  | CLARIFICATION : ResearchStage
  | RESEARCH : ResearchStage
  | DEVELOPMENT : ResearchStage
  | TESTING : ResearchStage
  | DOCUMENTATION : ResearchStage
  | COMPLETED : ResearchStage
deriving DecidableEq, Repr

/-- Position of a stage in the enumeration order. -/
def stageIdx : ResearchStage → Nat
  | .INITIAL => 0
  | .CLARIFICATION => 1
  | .RESEARCH => 2
  | .DEVELOPMENT => 3
  | .TESTING => 4
  | .DOCUMENTATION => 5
  | .COMPLETED => 6

/-- `StageProgress.status` values from `managers/workflow.ts`. -/
inductive StageStatus where
  | pending : StageStatus
  | in_progress : StageStatus
  | completed : StageStatus
  | failed : StageStatus
deriving DecidableEq, Repr

/-- `StageProgress` from `managers/workflow.ts`; `details` is the free-form
object payload, embedded as a string-keyed association list. -/
structure StageProgress where
  stage : ResearchStage
  status : StageStatus
  startTime : Option Nat
  endTime : Option Nat
  progress : Nat
  details : List (String × String)
deriving DecidableEq, Repr

/-- `WorkflowError` from `managers/workflow.ts`. -/
structure WorkflowError where
  stage : ResearchStage
  error : String
  timestamp : Nat
  retryCount : Nat
deriving DecidableEq, Repr

/-- The `metadata` bag as the workflow manager actually uses it: the topic
and clarifications stored at creation plus the downstream `projectId`. -/
structure WorkflowMetadata where
  topic : String
  clarifications : List String
  projectId : Option String
deriving DecidableEq, Repr

/-- `WorkflowState` from `managers/workflow.ts`. -/
structure WorkflowState where
  sessionId : String
  currentStage : ResearchStage
  stages : List StageProgress
  startTime : Nat
  lastUpdateTime : Nat
  errors : List WorkflowError
  metadata : WorkflowMetadata
deriving DecidableEq, Repr

/-- `initializeStages`: one pending record per enumeration value, in order. -/
def initializeStages : List StageProgress :=
  [ ⟨.INITIAL, .pending, none, none, 0, []⟩,
    ⟨.CLARIFICATION, .pending, none, none, 0, []⟩,
    ⟨.RESEARCH, .pending, none, none, 0, []⟩,
    ⟨.DEVELOPMENT, .pending, none, none, 0, []⟩,
    ⟨.TESTING, .pending, none, none, 0, []⟩,
    ⟨.DOCUMENTATION, .pending, none, none, 0, []⟩,
    ⟨.COMPLETED, .pending, none, none, 0, []⟩ ]

/-- JavaScript object spread `{...old, ...new}` on the `details` payload. -/
def mergeDetails (old upd : List (String × String)) : List (String × String) :=
  old.filter (fun p => (upd.find? (fun q => q.1 = p.1)).isNone) ++ upd

/-- `WorkflowManager.updateStageProgress`: find the stage record and
unconditionally overwrite its status and progress; stamp `startTime` on the
first `in_progress`, stamp `endTime` on `completed`/`failed`; bump
`lastUpdateTime`.  There is no guard on the record's previous status. -/
def updateStageProgress (now : Nat) (stage : ResearchStage)
    (status : StageStatus) (progress : Nat)
    (details : Option (List (String × String))) (w : WorkflowState) :
    WorkflowState :=
  let stages := w.stages.map (fun s =>
    if s.stage = stage then
      { s with
        status := status,
        progress := progress,
        details := match details with
          | some d => mergeDetails s.details d
          | none => s.details,
        startTime := if status = StageStatus.in_progress ∧ s.startTime = none
          then some now else s.startTime,
        endTime := if status = StageStatus.completed ∨ status = StageStatus.failed
          then some now else s.endTime }
    else s)
  { w with stages := stages, lastUpdateTime := now }

/-- `workflow.stages.find(...)` wrapped for reuse (`getStage` in source). -/
def getStage? (w : WorkflowState) (stage : ResearchStage) :
    Option StageProgress :=
  w.stages.find? (fun s => s.stage = stage)

/-- `WorkflowManager.getStageProgress`: `stageProgress?.progress || 0`. -/
def getStageProgress (w : WorkflowState) (stage : ResearchStage) : Nat :=
  ((getStage? w stage).map (fun s => s.progress)).getD 0

/-- Mutate the first error entry whose stage matches: `retryCount++`,
overwrite message and timestamp. -/
def updateFirstError : List WorkflowError → ResearchStage → String → Nat →
    List WorkflowError
  | [], _, _, _ => []
  | e :: rest, stage, msg, now =>
    if e.stage = stage then
      { e with retryCount := e.retryCount + 1, error := msg,
               timestamp := now } :: rest
    else e :: updateFirstError rest stage msg now

/-- `WorkflowManager.recordError`: find-or-create the error entry keyed by
stage, then mark the stage `failed` with progress 0. -/
def recordError (now : Nat) (stage : ResearchStage) (msg : String)
    (w : WorkflowState) : WorkflowState :=
  let w1 :=
    if (w.errors.find? (fun e => e.stage = stage)).isSome then
      { w with errors := updateFirstError w.errors stage msg now }
    else
      { w with errors := w.errors ++ [⟨stage, msg, now, 0⟩] }
  updateStageProgress now stage .failed 0 none w1

/-- `WorkflowManager.createResearchPlan`: fresh workflow at stage
`research`, then milestone updates 10 and (after the plan is generated) 30. -/
def createResearchPlanOp (now : Nat) (topic : String)
    (clarifications : List String) : WorkflowState :=
  let w : WorkflowState :=
    ⟨"session_" ++ toString now, .RESEARCH, initializeStages, now, now, [],
     ⟨topic, clarifications, none⟩⟩
  let w1 := updateStageProgress now .RESEARCH .in_progress 10 none w
  updateStageProgress now .RESEARCH .in_progress 30 none w1

/-- The `crawl:progress` listener inside `executeResearch`: bump research
progress by 10, capped at 90. -/
def crawlProgressTick (now : Nat) (w : WorkflowState) : WorkflowState :=
  updateStageProgress now .RESEARCH .in_progress
    (min (getStageProgress w .RESEARCH + 10) 90) none w

/-- `WorkflowManager.executeResearch` endgame: mark research completed on
success, record the error on failure (the thrown error is re-raised to the
caller; only the state effect is modelled). -/
def executeResearch (now : Nat) (outcome : Except String Unit)
    (w : WorkflowState) : WorkflowState :=
  match outcome with
  | .ok _ => updateStageProgress now .RESEARCH .completed 100 none w
  | .error e => recordError now .RESEARCH e w

/-- `WorkflowManager.refineResearch`: reset the research stage to
`in_progress`/50, then completed/100 on success or a recorded error on
failure. -/
def refineResearch (now : Nat) (outcome : Except String Unit)
    (w : WorkflowState) : WorkflowState :=
  let w1 := updateStageProgress now .RESEARCH .in_progress 50 none w
  match outcome with
  | .ok _ => updateStageProgress now .RESEARCH .completed 100 none w1
  | .error e => recordError now .RESEARCH e w1

/-- Where `startDevelopment`'s external calls fail, if at all: missing
research results, project creation, code generation, or the test run. -/
inductive DevOutcome where
  | noResearchData : DevOutcome
  | createFailed : String → DevOutcome
  | generateFailed : String → String → DevOutcome
  | testsFailed : String → String → DevOutcome
  | success : String → DevOutcome

/-- `WorkflowManager.startDevelopment`: set `currentStage` to development
up front, walk the milestones, store the project id once the project is
created, and on full success mark development completed and advance
`currentStage` to testing; any failure records a development error and
leaves `currentStage` at development. -/
def startDevelopment (now : Nat) (outcome : DevOutcome) (w : WorkflowState) :
    WorkflowState :=
  let w1 := { w with currentStage := .DEVELOPMENT }
  let w2 := updateStageProgress now .DEVELOPMENT .in_progress 10 none w1
  match outcome with
  | .noResearchData => recordError now .DEVELOPMENT "Research results not found" w2
  | .createFailed msg => recordError now .DEVELOPMENT msg w2
  | .generateFailed pid msg =>
    let w3 := { w2 with metadata := { w2.metadata with projectId := some pid } }
    let w4 := updateStageProgress now .DEVELOPMENT .in_progress 20 none w3
    recordError now .DEVELOPMENT msg w4
  | .testsFailed pid msg =>
    let w3 := { w2 with metadata := { w2.metadata with projectId := some pid } }
    let w4 := updateStageProgress now .DEVELOPMENT .in_progress 20 none w3
    let w5 := updateStageProgress now .DEVELOPMENT .in_progress 60 none w4
    recordError now .DEVELOPMENT msg w5
  | .success pid =>
    let w3 := { w2 with metadata := { w2.metadata with projectId := some pid } }
    let w4 := updateStageProgress now .DEVELOPMENT .in_progress 20 none w3
    let w5 := updateStageProgress now .DEVELOPMENT .in_progress 60 none w4
    let w6 := updateStageProgress now .DEVELOPMENT .completed 100 none w5
    { w6 with currentStage := .TESTING }

/-- The payload of `POST /test/run` as `runTests` reads it. -/
structure TestResults where
  passed : Nat
  failed : Nat
deriving DecidableEq, Repr

/-- `WorkflowManager.runTests`: requires a stored project id; on a returned
result, the testing stage is marked `completed` with progress 100 when no
test failed and 80 otherwise; a transport error records a testing error. -/
def runTests (now : Nat) (outcome : Except String TestResults)
    (w : WorkflowState) : WorkflowState × Except String TestResults :=
  match w.metadata.projectId with
  | none => (w, .error "Project ID not found")
  | some _ =>
    let w1 := updateStageProgress now .TESTING .in_progress 10 none w
    match outcome with
    | .ok tr =>
      let progress := if tr.failed = 0 then 100 else 80
      (updateStageProgress now .TESTING .completed progress none w1, .ok tr)
    | .error e => (recordError now .TESTING e w1, .error e)

/-- `DocumentGenerationOptions.format`; `none` embeds a missing format, for
which all three documents are produced. -/
inductive DocFormat where
  | pdf : DocFormat
  | latex : DocFormat
  | pptx : DocFormat
deriving DecidableEq, Repr

/-- `WorkflowManager.generateDocuments`: set `currentStage` to documentation
up front, walk the per-format milestones, and on success mark documentation
completed and advance `currentStage` to completed; a failure records a
documentation error and leaves `currentStage` at documentation. -/
def generateDocuments (now : Nat) (fmt : Option DocFormat)
    (outcome : Except String Unit) (w : WorkflowState) : WorkflowState :=
  let w1 := { w with currentStage := .DOCUMENTATION }
  let w2 := updateStageProgress now .DOCUMENTATION .in_progress 10 none w1
  match outcome with
  | .error e => recordError now .DOCUMENTATION e w2
  | .ok _ =>
    let w3 := if fmt = some .pdf ∨ fmt = none then
        updateStageProgress now .DOCUMENTATION .in_progress 30 none w2 else w2
    let w4 := if fmt = some .latex ∨ fmt = none then
        updateStageProgress now .DOCUMENTATION .in_progress 60 none w3 else w3
    let w5 := if fmt = some .pptx ∨ fmt = none then
        updateStageProgress now .DOCUMENTATION .in_progress 90 none w4 else w4
    let w6 := updateStageProgress now .DOCUMENTATION .completed 100 none w5
    { w6 with currentStage := .COMPLETED }

@[simp] theorem updateStageProgress_currentStage (now : Nat)
    (st : ResearchStage) (status : StageStatus) (p : Nat)
    (d : Option (List (String × String))) (w : WorkflowState) :
    (updateStageProgress now st status p d w).currentStage = w.currentStage :=
  rfl

@[simp] theorem updateStageProgress_errors (now : Nat) (st : ResearchStage)
    (status : StageStatus) (p : Nat) (d : Option (List (String × String)))
    (w : WorkflowState) :
    (updateStageProgress now st status p d w).errors = w.errors := rfl

@[simp] theorem recordError_currentStage (now : Nat) (st : ResearchStage)
    (m : String) (w : WorkflowState) :
    (recordError now st m w).currentStage = w.currentStage := by
  simp only [recordError, updateStageProgress_currentStage]
  split <;> rfl

theorem recordError_errors (now : Nat) (st : ResearchStage) (m : String)
    (w : WorkflowState) :
    (recordError now st m w).errors =
      if (w.errors.find? (fun e => e.stage = st)).isSome then
        updateFirstError w.errors st m now
      else w.errors ++ [⟨st, m, now, 0⟩] := by
  simp only [recordError, updateStageProgress_errors]
  split <;> simp_all

theorem find?_stage_update (l : List StageProgress) (st : ResearchStage)
    (f : StageProgress → StageProgress) (hf : ∀ s, (f s).stage = s.stage) :
    (l.map (fun s => if s.stage = st then f s else s)).find?
        (fun s => s.stage = st)
      = (l.find? (fun s => s.stage = st)).map f := by
  induction l with
  | nil => rfl
  | cons a l ih =>
    by_cases ha : a.stage = st
    · simp [List.find?_cons, ha, hf]
    · simp [List.find?_cons, ha, hf, ih]

theorem getStage?_updateStageProgress (now : Nat) (st : ResearchStage)
    (status : StageStatus) (p : Nat) (d : Option (List (String × String)))
    (w : WorkflowState) :
    getStage? (updateStageProgress now st status p d w) st =
      (getStage? w st).map (fun s =>
        { s with
          status := status,
          progress := p,
          details := match d with
            | some dd => mergeDetails s.details dd
            | none => s.details,
          startTime := if status = StageStatus.in_progress ∧ s.startTime = none
            then some now else s.startTime,
          endTime := if status = StageStatus.completed ∨ status = StageStatus.failed
            then some now else s.endTime }) := by
  unfold getStage? updateStageProgress
  exact find?_stage_update _ _ _ (fun s => rfl)

/-- C5 (counterexample): the claim states `currentStage` is never set to an
earlier stage than its current value except for research refinement; but
after a completed run (`currentStage = completed`), re-invoking
`startDevelopment` — which the manager does not guard against — sets
`currentStage` back to development and then testing, a regression that is
not the research-reopen case. -/
theorem currentStage_regression :
    (generateDocuments 2 (some .pdf) (.ok ())
        (startDevelopment 1 (.success "p")
          (createResearchPlanOp 0 "t" []))).currentStage = .COMPLETED
    ∧ (startDevelopment 3 (.success "p")
        (generateDocuments 2 (some .pdf) (.ok ())
          (startDevelopment 1 (.success "p")
            (createResearchPlanOp 0 "t" [])))).currentStage = .TESTING
    ∧ stageIdx .TESTING < stageIdx .COMPLETED
    ∧ (ResearchStage.TESTING ≠ ResearchStage.RESEARCH) :=
  ⟨rfl, rfl, by decide, by decide⟩

/-- C5 (amended): `currentStage` advances forward through the enumeration
order when the operations run in their nominal order — a fresh workflow
starts at research, `startDevelopment` invoked at research moves it to
development/testing, `generateDocuments` invoked at testing moves it to
documentation/completed, and research execution/refinement leave
`currentStage` unchanged; the manager does not itself guard against
out-of-order invocation, under which `currentStage` can regress. -/
theorem currentStage_forward_nominal (w : WorkflowState) (now : Nat)
    (dev : DevOutcome) (fmt : Option DocFormat) (doc res : Except String Unit)
    (topic : String) (clarifications : List String) :
    (w.currentStage = .RESEARCH →
      stageIdx w.currentStage
        ≤ stageIdx (startDevelopment now dev w).currentStage)
    ∧ (w.currentStage = .TESTING →
      stageIdx w.currentStage
        ≤ stageIdx (generateDocuments now fmt doc w).currentStage)
    ∧ (refineResearch now res w).currentStage = w.currentStage
    ∧ (executeResearch now res w).currentStage = w.currentStage
    ∧ (createResearchPlanOp now topic clarifications).currentStage
        = .RESEARCH := by
  refine ⟨?_, ?_, ?_, ?_, rfl⟩
  · intro h
    rw [h]
    cases dev <;> simp [startDevelopment, stageIdx]
  · intro h
    rw [h]
    cases doc <;> simp [generateDocuments, stageIdx]
  · cases res <;> simp [refineResearch]
  · cases res <;> simp [executeResearch]

/-- C5 witness: the forward-advance facts at concrete workflows in the
research and testing stages. -/
theorem currentStage_forward_nominal_witness :
    stageIdx (⟨"s", .RESEARCH, initializeStages, 0, 0, [],
        ⟨"t", [], none⟩⟩ : WorkflowState).currentStage
      ≤ stageIdx (startDevelopment 1 (.success "p")
        ⟨"s", .RESEARCH, initializeStages, 0, 0, [],
          ⟨"t", [], none⟩⟩).currentStage
    ∧ stageIdx (⟨"s", .TESTING, initializeStages, 0, 0, [],
        ⟨"t", [], some "p"⟩⟩ : WorkflowState).currentStage
      ≤ stageIdx (generateDocuments 1 (some .pdf) (.ok ())
        ⟨"s", .TESTING, initializeStages, 0, 0, [],
          ⟨"t", [], some "p"⟩⟩).currentStage :=
  ⟨(currentStage_forward_nominal
      ⟨"s", .RESEARCH, initializeStages, 0, 0, [], ⟨"t", [], none⟩⟩ 1
      (.success "p") none (.ok ()) (.ok ()) "" []).1 rfl,
   (currentStage_forward_nominal
      ⟨"s", .TESTING, initializeStages, 0, 0, [], ⟨"t", [], some "p"⟩⟩ 1
      (.success "p") (some .pdf) (.ok ()) (.ok ()) "" []).2.1 rfl⟩

/-- C6 (counterexample): the claim states that once a stage's status reaches
completed or failed its progress value is frozen; but after research
completes at progress 100 (with an end timestamp), a failing
`refineResearch` overwrites the research stage's recorded progress to 0. -/
theorem completed_progress_overwritten :
    getStageProgress
        (executeResearch 1 (.ok ()) (createResearchPlanOp 0 "t" []))
        .RESEARCH = 100
    ∧ (getStage? (executeResearch 1 (.ok ()) (createResearchPlanOp 0 "t" []))
        .RESEARCH).map (fun s => s.status) = some .completed
    ∧ (getStage? (executeResearch 1 (.ok ()) (createResearchPlanOp 0 "t" []))
        .RESEARCH).map (fun s => s.endTime) = some (some 1)
    ∧ getStageProgress
        (refineResearch 2 (.error "bad")
          (executeResearch 1 (.ok ()) (createResearchPlanOp 0 "t" [])))
        .RESEARCH = 0 :=
  ⟨rfl, rfl, rfl, rfl⟩

/-- C6 (amended): a transition to `completed` or `failed` stamps the stage's
`endTime` with the current instant and records exactly the given status and
progress; nothing freezes the value afterwards — a later operation (such as
`refineResearch` on a completed research stage) overwrites status and
progress unconditionally. -/
theorem stage_end_stamped (w : WorkflowState) (now : Nat)
    (st : ResearchStage) (status : StageStatus) (p : Nat)
    (d : Option (List (String × String))) (rec : StageProgress)
    (hstatus : status = .completed ∨ status = .failed)
    (hrec : getStage? (updateStageProgress now st status p d w) st = some rec) :
    rec.endTime = some now ∧ rec.status = status ∧ rec.progress = p := by
  rw [getStage?_updateStageProgress] at hrec
  obtain ⟨s0, -, hfs⟩ := Option.map_eq_some'.mp hrec
  subst hfs
  refine ⟨?_, rfl, rfl⟩
  simp only [if_pos hstatus]

/-- C6 witness: the stamping property at a concrete completed transition. -/
theorem stage_end_stamped_witness :
    ((StageStatus.completed = StageStatus.completed
        ∨ StageStatus.completed = StageStatus.failed)
    ∧ ((⟨.RESEARCH, .completed, none, some 7, 100, []⟩ :
        StageProgress).endTime = some 7
      ∧ (⟨.RESEARCH, .completed, none, some 7, 100, []⟩ :
        StageProgress).status = .completed
      ∧ (⟨.RESEARCH, .completed, none, some 7, 100, []⟩ :
        StageProgress).progress = 100)) :=
  ⟨Or.inl rfl,
   stage_end_stamped
     ⟨"s", .RESEARCH, initializeStages, 0, 0, [], ⟨"t", [], none⟩⟩ 7
     .RESEARCH .completed 100 none _ (Or.inl rfl) rfl⟩

/-- Number of error entries recorded against one stage. -/
def countErrorsFor (errors : List WorkflowError) (st : ResearchStage) : Nat :=
  (errors.filter (fun e => e.stage = st)).length

theorem countErrorsFor_eq_zero_iff (l : List WorkflowError)
    (st : ResearchStage) :
    countErrorsFor l st = 0 ↔ l.find? (fun e => e.stage = st) = none := by
  simp [countErrorsFor, List.length_eq_zero, List.filter_eq_nil_iff,
    List.find?_eq_none]

theorem updateFirstError_stages (l : List WorkflowError) (st : ResearchStage)
    (m : String) (t : Nat) :
    (updateFirstError l st m t).map (fun e => e.stage)
      = l.map (fun e => e.stage) := by
  induction l with
  | nil => rfl
  | cons e rest ih =>
    by_cases he : e.stage = st
    · simp [updateFirstError, he]
    · simp [updateFirstError, he, ih]

theorem countErrorsFor_eq_countP (l : List WorkflowError)
    (st' : ResearchStage) :
    countErrorsFor l st'
      = (l.map (fun e => e.stage)).countP (fun s => s = st') := by
  rw [countErrorsFor, ← List.countP_eq_length_filter, List.countP_map]
  rfl

theorem countErrorsFor_updateFirstError (l : List WorkflowError)
    (st st' : ResearchStage) (m : String) (t : Nat) :
    countErrorsFor (updateFirstError l st m t) st' = countErrorsFor l st' := by
  rw [countErrorsFor_eq_countP, countErrorsFor_eq_countP,
    updateFirstError_stages]

theorem updateFirstError_append_singleton (l : List WorkflowError)
    (st : ResearchStage) (m : String) (t : Nat) (e : WorkflowError)
    (hl : l.find? (fun x => x.stage = st) = none) (he : e.stage = st) :
    updateFirstError (l ++ [e]) st m t =
      l ++ [{ e with retryCount := e.retryCount + 1, error := m,
                     timestamp := t }] := by
  induction l with
  | nil => simp [updateFirstError, he]
  | cons a rest ih =>
    rw [List.find?_cons] at hl
    by_cases ha : a.stage = st
    · simp [ha] at hl
    · have hrest : rest.find? (fun x => x.stage = st) = none := by
        simpa [ha] using hl
      simp only [List.cons_append, updateFirstError]
      rw [if_neg ha]
      exact congrArg _ (ih hrest)

/-- C7 (confirmed): recording a second error for a stage that already has an
entry bumps that entry's `retryCount` to 1 and overwrites its message and
timestamp instead of appending, so the stage ends with exactly one entry;
and every `recordError` preserves the bound of at most one error entry per
stage. -/
theorem recordError_one_entry_per_stage :
    (∀ (w : WorkflowState) (st : ResearchStage) (m1 m2 : String) (t1 t2 : Nat),
      countErrorsFor w.errors st = 0 →
      countErrorsFor (recordError t2 st m2 (recordError t1 st m1 w)).errors st = 1
      ∧ (recordError t2 st m2 (recordError t1 st m1 w)).errors.find?
          (fun e => e.stage = st) = some ⟨st, m2, t2, 1⟩)
    ∧ (∀ (w : WorkflowState) (st : ResearchStage) (m : String) (t : Nat)
        (st' : ResearchStage), countErrorsFor w.errors st' ≤ 1 →
        countErrorsFor (recordError t st m w).errors st' ≤ 1) := by
  constructor
  · intro w st m1 m2 t1 t2 hzero
    have hnone : w.errors.find? (fun e => e.stage = st) = none :=
      (countErrorsFor_eq_zero_iff _ _).mp hzero
    have hfil : w.errors.filter (fun e => e.stage = st) = [] :=
      List.length_eq_zero.mp hzero
    have h1 : (recordError t1 st m1 w).errors = w.errors ++ [⟨st, m1, t1, 0⟩] := by
      rw [recordError_errors, hnone]
      simp
    have hfind1 : (w.errors ++ [(⟨st, m1, t1, 0⟩ : WorkflowError)]).find?
        (fun e => e.stage = st) = some ⟨st, m1, t1, 0⟩ := by
      rw [List.find?_append, hnone]
      simp [List.find?_cons]
    have h2 : (recordError t2 st m2 (recordError t1 st m1 w)).errors =
        w.errors ++ [⟨st, m2, t2, 1⟩] := by
      rw [recordError_errors, h1, hfind1]
      simp only [Option.isSome_some, if_pos]
      rw [updateFirstError_append_singleton w.errors st m2 t2 _ hnone rfl]
    rw [h2]
    constructor
    · simp [countErrorsFor, List.filter_append, hfil, List.filter_cons]
    · rw [List.find?_append, hnone]
      simp [List.find?_cons]
  · intro w st m t st' hle
    rw [recordError_errors]
    split
    · rwa [countErrorsFor_updateFirstError]
    · rename_i hnotsome
      have hnone : w.errors.find? (fun e => e.stage = st) = none := by
        cases h : w.errors.find? (fun e => e.stage = st) with
        | none => rfl
        | some e => rw [h] at hnotsome; simp at hnotsome
      by_cases hst : st = st'
      · subst hst
        have hz : countErrorsFor w.errors st = 0 :=
          (countErrorsFor_eq_zero_iff _ _).mpr hnone
        have hfil : w.errors.filter (fun e => e.stage = st) = [] :=
          List.length_eq_zero.mp hz
        show countErrorsFor (w.errors ++ [⟨st, m, t, 0⟩]) st ≤ 1
        rw [countErrorsFor, List.filter_append, hfil]
        simp
      · simp [countErrorsFor, List.filter_append, List.filter_cons, hst] at hle ⊢
        exact hle

/-- C7 witness: two errors against the research stage of a fresh workflow
leave one entry with `retryCount = 1`, and the per-stage bound holds at a
concrete state. -/
theorem recordError_one_entry_per_stage_witness :
    countErrorsFor (recordError 2 .RESEARCH "late"
        (recordError 1 .RESEARCH "early"
          ⟨"s", .RESEARCH, initializeStages, 0, 0, [],
            ⟨"t", [], none⟩⟩)).errors .RESEARCH = 1
    ∧ (recordError 2 .RESEARCH "late"
        (recordError 1 .RESEARCH "early"
          ⟨"s", .RESEARCH, initializeStages, 0, 0, [],
            ⟨"t", [], none⟩⟩)).errors.find?
        (fun e => e.stage = .RESEARCH) = some ⟨.RESEARCH, "late", 2, 1⟩ :=
  recordError_one_entry_per_stage.1
    ⟨"s", .RESEARCH, initializeStages, 0, 0, [], ⟨"t", [], none⟩⟩
    .RESEARCH "early" "late" 1 2 rfl

/-- C10 (confirmed): whenever the test run returns a result (no transport
error), `runTests` marks the testing stage `completed` — with progress 100
when `failed = 0` and 80 otherwise — and never marks it `failed`, even when
the result reports failing tests. -/
theorem runTests_marks_completed (w : WorkflowState) (now : Nat)
    (tr : TestResults) (pid : String) (rec : StageProgress)
    (hpid : w.metadata.projectId = some pid)
    (hrec : getStage? (runTests now (.ok tr) w).1 .TESTING = some rec) :
    rec.status = .completed
    ∧ rec.progress = (if tr.failed = 0 then 100 else 80)
    ∧ rec.status ≠ .failed := by
  unfold runTests at hrec
  rw [hpid] at hrec
  simp only [getStage?_updateStageProgress] at hrec
  obtain ⟨s0, -, hfs⟩ := Option.map_eq_some'.mp hrec
  subst hfs
  exact ⟨rfl, rfl, by simp⟩

/-- C10 witness: a run with 2 failing tests still completes the testing
stage, at progress 80. -/
theorem runTests_marks_completed_witness :
    (⟨.TESTING, .completed, some 1, some 1, 80, []⟩ :
        StageProgress).status = .completed
    ∧ (⟨.TESTING, .completed, some 1, some 1, 80, []⟩ :
        StageProgress).progress =
        (if (⟨3, 2⟩ : TestResults).failed = 0 then 100 else 80)
    ∧ (⟨.TESTING, .completed, some 1, some 1, 80, []⟩ :
        StageProgress).status ≠ .failed :=
  runTests_marks_completed
    ⟨"s", .TESTING, initializeStages, 0, 0, [], ⟨"t", [], some "p"⟩⟩ 1
    ⟨3, 2⟩ "p" ⟨.TESTING, .completed, some 1, some 1, 80, []⟩ rfl (by rfl)

end Workflow

namespace Handler

open Workflow (ResearchStage)

/-- `ResearchSession` from `index.ts` (the envelope `history` and free-form
`metadata` are not inspected by any claim and are omitted). -/
structure ResearchSession where
  id : String
  topic : String
  stage : ResearchStage
  clarifications : List String
  createdAt : Nat
  updatedAt : Nat
deriving DecidableEq, Repr

/-- `Phase` from `orchestrators/research.ts`. -/
structure Phase where
  name : String
  duration : Nat
  tasks : List String
deriving DecidableEq, Repr

/-- `Timeline` from `orchestrators/research.ts`. -/
structure Timeline where
  totalDays : Nat
  phases : List Phase
deriving DecidableEq, Repr

/-- `PaperReference` from `orchestrators/research.ts`. -/
structure PaperReference where
  title : String
  authors : List String
  year : Nat
  venue : String
  doi : Option String
  arxivId : Option String
  relevance : String
deriving DecidableEq, Repr

/-- `ResearchPlan` from `orchestrators/research.ts`. -/
structure ResearchPlan where
  id : String
  topic : String
  objectives : List String
  methodology : String
  timeline : Timeline
  keyPapers : List PaperReference
  researchQuestions : List String
  expectedOutcomes : List String
deriving DecidableEq, Repr

/-- The `result` payload of the `research.clarify` response; fields absent
from the returned object literal are `none`. -/
structure ClarifyResult where
  sessionId : String
  questions : Option (List String)
  needsMoreClarification : Option Bool
  researchPlan : Option ResearchPlan
  stage : Option ResearchStage
deriving DecidableEq, Repr

/-- `MCPHandler.handleClarification` on an existing session: append the
submitted answers; with fewer than 2 accumulated clarifications return
follow-up questions flagged `needsMoreClarification` (the session object is
not restaged); otherwise set the session's stage to research and return the
research plan together with `stage: research`.  The generated follow-up
questions and the created plan are the awaited LLM outputs, passed here as
parameters. -/
def handleClarification (session : ResearchSession) (answers : List String)
    (followUpQuestions : List String) (plan : ResearchPlan) :
    ResearchSession × ClarifyResult :=
  let s1 := { session with
    clarifications := session.clarifications ++ answers }
  if s1.clarifications.length < 2 then
    (s1, ⟨s1.id, some followUpQuestions, some true, none, none⟩)
  else
    let s2 := { s1 with stage := ResearchStage.RESEARCH }
    (s2, ⟨s2.id, none, none, some plan, some ResearchStage.RESEARCH⟩)

/-- C8 (confirmed): after appending the submitted answers, fewer than 2
accumulated clarifications yields a response carrying
`needsMoreClarification = true` with the follow-up questions while the
session stays in the clarification stage; 2 or more accumulated
clarifications move the session's stage to research and the response carries
`stage = research` together with the research plan object. -/
theorem handleClarification_spec (session : ResearchSession)
    (answers followUps : List String) (plan : ResearchPlan)
    (hstage : session.stage = .CLARIFICATION) :
    (session.clarifications.length + answers.length < 2 →
      (handleClarification session answers followUps plan).2.needsMoreClarification
          = some true
      ∧ (handleClarification session answers followUps plan).2.questions
          = some followUps
      ∧ (handleClarification session answers followUps plan).1.stage
          = .CLARIFICATION)
    ∧ (2 ≤ session.clarifications.length + answers.length →
      (handleClarification session answers followUps plan).1.stage = .RESEARCH
      ∧ (handleClarification session answers followUps plan).2.stage
          = some .RESEARCH
      ∧ (handleClarification session answers followUps plan).2.researchPlan
          = some plan) := by
  constructor
  · intro h
    simp [handleClarification, List.length_append, hstage, h]
  · intro h
    have hge : ¬ session.clarifications.length + answers.length < 2 := by
      omega
    simp [handleClarification, List.length_append, hge]

/-- A research plan used to instantiate witnesses. -/
def samplePlan : ResearchPlan :=
  ⟨"plan_1", "edge caching", ["o1"], "m", ⟨30, []⟩, [], ["q1"], ["e1"]⟩

/-- C8 witness: the two branches at concrete sessions — one prior answer
plus one submitted answer reaches the research branch; no prior answer plus
one submitted answer stays in clarification. -/
theorem handleClarification_spec_witness :
    ((handleClarification
        ⟨"sA", "t", .CLARIFICATION, [], 0, 0⟩ ["a1"] ["q2"]
        samplePlan).2.needsMoreClarification = some true
      ∧ (handleClarification
        ⟨"sA", "t", .CLARIFICATION, [], 0, 0⟩ ["a1"] ["q2"]
        samplePlan).2.questions = some ["q2"]
      ∧ (handleClarification
        ⟨"sA", "t", .CLARIFICATION, [], 0, 0⟩ ["a1"] ["q2"]
        samplePlan).1.stage = .CLARIFICATION)
    ∧ ((handleClarification
        ⟨"sB", "t", .CLARIFICATION, ["a1"], 0, 0⟩ ["a2"] ["q3"]
        samplePlan).1.stage = .RESEARCH
      ∧ (handleClarification
        ⟨"sB", "t", .CLARIFICATION, ["a1"], 0, 0⟩ ["a2"] ["q3"]
        samplePlan).2.stage = some .RESEARCH
      ∧ (handleClarification
        ⟨"sB", "t", .CLARIFICATION, ["a1"], 0, 0⟩ ["a2"] ["q3"]
        samplePlan).2.researchPlan = some samplePlan) :=
  ⟨(handleClarification_spec ⟨"sA", "t", .CLARIFICATION, [], 0, 0⟩
      ["a1"] ["q2"] samplePlan rfl).1 (by decide),
   (handleClarification_spec ⟨"sB", "t", .CLARIFICATION, ["a1"], 0, 0⟩
      ["a2"] ["q3"] samplePlan rfl).2 (by decide)⟩

/-- The body of `app.get("/sessions")`: enumerate the durable session keys,
fetch each value, map an absent value to `null` and parse a present one with
`JSON.parse`, reject on a parse throw (there is no surrounding catch), and
filter the `null`s from the final list.  `JSON.parse` is a partial built-in,
embedded as the `parse` parameter; the store is the `session:*` keyspace as
`(key, stored value)` pairs. -/
def listSessions {α : Type} (parse : String → Option α) :
    List (String × Option String) → Except String (List α)
  | [] => .ok []
  | (_, none) :: rest => listSessions parse rest
  | (_, some raw) :: rest =>
    match parse raw with
    | none => .error ("Unexpected token in JSON: " ++ raw)
    | some v => (listSessions parse rest).map (fun l => v :: l)

/-- C9 (counterexample): the claim states an entry whose stored value fails
to deserialize is silently skipped and never fails the listing; but the
handler calls `JSON.parse` with no catch, so one malformed stored value
(here `"###"`, on which the parse model fails exactly as `JSON.parse`
throws) rejects the whole listing. -/
theorem listSessions_fails_on_bad_entry :
    listSessions (fun raw => if raw = "###" then none else some raw)
      [("session:a", some "alice"), ("session:b", some "###")]
      = Except.error ("Unexpected token in JSON: ###") := rfl

/-- C9 (amended): the listing enumerates every durable session key and
silently skips entries whose stored value is absent (`null`), returning the
parsed sessions in key order — provided every present value deserializes;
an entry whose present value fails to parse causes the listing as a whole
to fail instead of being skipped. -/
theorem listSessions_spec {α : Type} (parse : String → Option α)
    (store : List (String × Option String))
    (hall : ∀ k v, (k, some v) ∈ store → (parse v).isSome = true) :
    listSessions parse store
      = .ok (store.filterMap (fun kv => kv.2.bind parse)) := by
  induction store with
  | nil => rfl
  | cons kv rest ih =>
    match kv with
    | (k, none) =>
      rw [List.filterMap_cons]
      simpa [listSessions, Option.bind] using
        ih (fun k' v' hm => hall k' v' (List.mem_cons_of_mem _ hm))
    | (k, some raw) =>
      have hs : (parse raw).isSome = true :=
        hall k raw (List.mem_cons_self _ _)
      obtain ⟨v, hv⟩ := Option.isSome_iff_exists.mp hs
      rw [List.filterMap_cons]
      simp only [listSessions, hv, Option.bind,
        ih (fun k' v' hm => hall k' v' (List.mem_cons_of_mem _ hm))]
      simp [Except.map]

/-- C9 witness: the amended listing at a concrete store with one absent
value. -/
theorem listSessions_spec_witness :
    listSessions (fun raw => if raw = "###" then none else some raw)
      [("session:a", some "alice"), ("session:b", none),
       ("session:c", some "bob")]
      = .ok (([("session:a", some "alice"), ("session:b", none),
          ("session:c", some "bob")] :
            List (String × Option String)).filterMap
          (fun kv => kv.2.bind
            (fun raw => if raw = "###" then none else some raw))) :=
  listSessions_spec _ _ (by
    intro k v hm
    simp only [List.mem_cons, List.not_mem_nil, or_false, Prod.mk.injEq,
      Option.some.injEq, reduceCtorEq, false_and, and_false, false_or] at hm
    rcases hm with ⟨rfl, rfl⟩ | ⟨rfl, rfl⟩ <;> decide)

end Handler

